import Mathlib

/-!
Verification of the seekdb ecology plugin scripts.

This file gives a shallow embedding of the Python scripts of the
repository (the import/query/export command-line utilities, the
documentation-catalog generator and the skill installer) and proves
properties of the embedded definitions.  Each definition carries a
comment pointing at the Python source it translates.  External effects
(the vector-database client, the LLM HTTP API, the file system) are
modelled by explicit function parameters, and every database or LLM
call a function issues is returned as part of its result so that
call-count properties can be stated.
-/

namespace SeekdbPlugins

/-- Python exception values raised by the scripts. -/
inductive PyErr where
  | fileNotFound (msg : String)
  | valueError (msg : String)
  | typeError (msg : String)
  | indexError (msg : String)
deriving DecidableEq, Repr

/-- Model of `str.lower()` (the scripts only lower ASCII file
suffixes). -/
def strLower (s : String) : String := ⟨s.data.map Char.toLower⟩

/-- Model of `str.startswith(pre)`. -/
def pyStartsWith (s pre : String) : Bool := pre.data.isPrefixOf s.data

/-- Model of the slice `s[:n]` on a string. -/
def strTake (s : String) (n : Nat) : String := ⟨s.data.take n⟩

/-- Model of `len(s)` on a string (number of characters). -/
def strLen (s : String) : Nat := s.data.length

/-- Splitting a character list at every `'/'` (the separator semantics
of `str.split("/")`). -/
def splitOnSlash : List Char → List (List Char)
  | [] => [[]]
  | c :: rest =>
    match splitOnSlash rest with
    | [] => []
    | g :: gs => if c = '/' then [] :: g :: gs else (c :: g) :: gs

/-- Model of `s.split("/")`. -/
def splitSlash (s : String) : List String := (splitOnSlash s.data).map String.mk

/-- The final non-empty component of a POSIX path string, as
`pathlib.PurePath.name` computes it (trailing and repeated slashes are
dropped by pathlib's normalisation). -/
def pathName (s : String) : String :=
  (((splitSlash s).filter (fun c => c ≠ "")).getLastD "")

/-- The extension of a path, as `pathlib.PurePath.suffix` computes it:
with `i` the index of the last dot of the final component, the suffix is
the substring from `i` when `0 < i < len(name) - 1`, and `""` otherwise
(so dotfiles and names with only a trailing dot have no suffix). -/
def pathSuffix (s : String) : String :=
  let name := (pathName s).data
  match name.reverse.findIdx? (fun c => c = '.') with
  | none => ""
  | some j =>
    let i := name.length - 1 - j
    if 0 < i ∧ i < name.length - 1 then String.mk (name.drop i) else ""

/-- Result of `importing-data-files/scripts/data_utils.py::read_file`.
`fs` models the file system (`Path(file_path).exists()` is `fs p ≠ none`),
and `readCsv` / `readExcel` model `pd.read_csv` / `pd.read_excel`. -/
def read_file {Raw Table : Type} (fs : String → Option Raw)
    (readCsv readExcel : Raw → Table) (file_path : String) :
    Except PyErr Table :=
  match fs file_path with
  | none => .error (.fileNotFound ("File not found: " ++ file_path))
  | some raw =>
    let suffix := strLower (pathSuffix file_path)
    if suffix = ".csv" then .ok (readCsv raw)
    else if suffix = ".xlsx" ∨ suffix = ".xls" then .ok (readExcel raw)
    else .error (.valueError
      ("Unsupported file format: " ++ suffix ++ ". Use .csv or .xlsx"))

/-- The write a successful `export_to_file` performs: a CSV write
(`df.to_csv(output_path, index=False, encoding="utf-8-sig")`) or an
Excel write (`df.to_excel(output_path, index=False, sheet_name=...,
engine="openpyxl")`). -/
inductive ExportAction (Table : Type) where
  | csv (df : Table) (path : String)
  | excel (df : Table) (path : String) (sheet : String)
deriving DecidableEq, Repr

/-- Model of `str(Path(p).absolute())`: `p` itself when `p` is already
absolute, and the current working directory joined with `p` otherwise
(`Path.absolute` prepends `cwd` without resolving symlinks or dots). -/
def absolutize (cwd p : String) : String :=
  if pyStartsWith p "/" then p else cwd ++ "/" ++ p

/-- Result of `querying-from-seekdb/scripts/query_from_seekdb.py::
export_to_file` (claudecode-plugin copy, lines 311-339): the dispatch on
the lowered suffix of `output_path`, the write performed, and the
returned `str(path.absolute())`.  The `path.parent.mkdir(parents=True,
exist_ok=True)` call is directory creation only and has no observable
effect in this model. -/
def export_to_file {Table : Type} (cwd : String) (df : Table)
    (output_path : String) (sheet_name : String := "Data") :
    Except PyErr (ExportAction Table × String) :=
  let suffix := strLower (pathSuffix output_path)
  if suffix = ".csv" then
    .ok (.csv df output_path, absolutize cwd output_path)
  else if suffix = ".xlsx" ∨ suffix = ".xls" then
    .ok (.excel df output_path sheet_name, absolutize cwd output_path)
  else
    .error (.valueError
      ("Unsupported file format: " ++ suffix ++ ". Use .csv or .xlsx"))

/-- `importing-data-files/scripts/data_utils.py::batch_generator`:
`for i in range(0, len(items), batch_size): yield items[i:i+batch_size]`.
The slice `items[i:i+batch_size]` is `(items.drop i).take batch_size`,
and stepping `i` by `batch_size` is recursion on `items.drop
batch_size`.  A zero `batch_size` makes Python's `range` raise
`ValueError`; the model returns `[]` there (the guard is only for
totality, all theorems assume `0 < batch_size`). -/
def batch_generator {α : Type} (items : List α) (batch_size : Nat) :
    List (List α) :=
  match items, batch_size with
  | _, 0 => []
  | [], _ => []
  | x :: xs, b + 1 =>
    (x :: xs).take (b + 1) :: batch_generator ((x :: xs).drop (b + 1)) (b + 1)
termination_by items.length
decreasing_by
  simp [List.length_drop]
  omega

/-! ## Query script: pyseekdb client model

`query_from_seekdb.py` exists in two copies: `claudecode-plugin/skills/
querying-from-seekdb/scripts/` and `agent-skills/skills/
querying-from-seekdb/scripts/`.  Shared parameter shapes first. -/

/-- A `where_document` full-text filter: the dict `{"$contains": s}`. -/
inductive DocFilter where
  | contains (s : String)
deriving DecidableEq, Repr

/-- A `query_texts` argument: the agent-skills script passes a bare
string, the claudecode-plugin script passes a one-element list. -/
inductive TextsArg where
  | str (s : String)
  | list (l : List String)
deriving DecidableEq, Repr

/-- Keyword arguments of a `collection.query(...)` call.  `whereF`
models the optional `where` metadata filter over an abstract filter
type `W`; `some w` stands for a truthy (non-empty) dict, `none` for an
absent or falsy one, mirroring the `if where:` tests in the source. -/
structure QueryCallParams (W : Type) where
  query_texts : String
  n_results : Nat
  whereF : Option W
  where_document : Option DocFilter
  includeF : List String
deriving DecidableEq, Repr

/-- Keyword arguments of a `collection.get(...)` call. -/
structure GetCallParams (W : Type) where
  ids : Option (List String)
  limit : Option Nat
  offset : Option Nat
  whereF : Option W
  includeF : List String
deriving DecidableEq, Repr

/-- The `query` (full-text) branch of a `hybrid_search` call. -/
structure HybridQueryConfig (W : Type) where
  n_results : Option Nat
  where_document : Option DocFilter
  whereF : Option W
deriving DecidableEq, Repr

/-- The `knn` (vector) branch of a `hybrid_search` call. -/
structure HybridKnnConfig (W : Type) where
  query_texts : TextsArg
  n_results : Option Nat
  whereF : Option W
deriving DecidableEq, Repr

/-- The `rank` argument of a `hybrid_search` call: a rank-fusion
operator name together with its options dict, so the literal
`rank={"rrf": {}}` of both scripts is `("rrf", [])`. -/
abbrev RankArg : Type := String × List (String × String)

/-- Keyword arguments of a `collection.hybrid_search(...)` call. -/
structure HybridCallParams (W : Type) where
  query : HybridQueryConfig W
  knn : HybridKnnConfig W
  rank : RankArg
  n_results : Nat
  includeF : List String
deriving DecidableEq, Repr

/-- A read call issued to the external vector database. -/
inductive DbCall (W : Type) where
  | get (collection : String) (p : GetCallParams W)
  | query (collection : String) (p : QueryCallParams W)
  | hybrid (collection : String) (p : HybridCallParams W)
  | count (collection : String)
  | peek (collection : String) (limit : Nat)
deriving DecidableEq, Repr

/-- The pyseekdb client: the collections that exist, plus the response
the external database gives to each kind of read call.  Each script
operation below returns the list of database calls it issues together
with its Python return value, so call counts are part of the model. -/
structure Client (W R : Type) where
  collections : List String
  getResp : String → GetCallParams W → R
  queryResp : String → QueryCallParams W → R
  hybridResp : String → HybridCallParams W → R
  countResp : String → Nat
  peekResp : String → Nat → R

/-- Comma-and-space separated concatenation (Python `", ".join`). -/
def commaSep : List String → String
  | [] => ""
  | [x] => x
  | x :: y :: rest => x ++ ", " ++ commaSep (y :: rest)

/-- Model of Python `repr`/`str` of the collection list, used only
inside the not-found error message. -/
def listRepr (l : List String) : String :=
  "[" ++ commaSep (l.map (fun s => "\x27" ++ s ++ "\x27")) ++ "]"

/-- The message of the `ValueError` raised by `get_collection`:
`f"Collection '{collection_name}' not found. Available collections:
{client.list_collections()}"`. -/
def notFoundMsg (collection_name : String) (cols : List String) : String :=
  "Collection \x27" ++ collection_name ++
    "\x27 not found. Available collections: " ++ listRepr cols

/-- `query_from_seekdb.py::get_collection` (claudecode-plugin copy,
lines 78-82; the agent-skills copy, lines 87-93, is identical):
`ValueError` when `client.has_collection(collection_name)` is false,
the collection handle otherwise. -/
def get_collection {W R : Type} (c : Client W R) (collection_name : String) :
    Except PyErr String :=
  if collection_name ∈ c.collections then .ok collection_name
  else .error (.valueError (notFoundMsg collection_name c.collections))

/-- The `if include: ... else: ["documents", "metadatas"]` default
applied by every query operation (an empty list is falsy in Python). -/
def resolveInclude (includeF : Option (List String)) : List String :=
  match includeF with
  | some l => if l = [] then ["documents", "metadatas"] else l
  | none => ["documents", "metadatas"]

/-- `query_from_seekdb.py::query_by_text` (claudecode-plugin copy,
lines 85-123): get the collection, build the query parameters, issue
one `collection.query` call. -/
def query_by_text {W R : Type} (c : Client W R)
    (collection_name query_text : String) (n_results : Nat)
    (whereF : Option W) (where_document : Option DocFilter)
    (includeF : Option (List String)) :
    List (DbCall W) × Except PyErr R :=
  match get_collection c collection_name with
  | .error e => ([], .error e)
  | .ok _ =>
    let params : QueryCallParams W :=
      { query_texts := query_text
        n_results := n_results
        whereF := whereF
        where_document := where_document
        includeF := resolveInclude includeF }
    ([.query collection_name params], .ok (c.queryResp collection_name params))

/-- `query_from_seekdb.py::get_by_ids` (claudecode-plugin copy, lines
126-150). -/
def get_by_ids {W R : Type} (c : Client W R) (collection_name : String)
    (ids : List String) (includeF : Option (List String)) :
    List (DbCall W) × Except PyErr R :=
  match get_collection c collection_name with
  | .error e => ([], .error e)
  | .ok _ =>
    let params : GetCallParams W :=
      { ids := some ids, limit := none, offset := none, whereF := none
        includeF := resolveInclude includeF }
    ([.get collection_name params], .ok (c.getResp collection_name params))

/-- `query_from_seekdb.py::get_all` (claudecode-plugin copy, lines
153-187). -/
def get_all {W R : Type} (c : Client W R) (collection_name : String)
    (limit offset : Nat) (whereF : Option W)
    (includeF : Option (List String)) :
    List (DbCall W) × Except PyErr R :=
  match get_collection c collection_name with
  | .error e => ([], .error e)
  | .ok _ =>
    let params : GetCallParams W :=
      { ids := none, limit := some limit, offset := some offset
        whereF := whereF, includeF := resolveInclude includeF }
    ([.get collection_name params], .ok (c.getResp collection_name params))

/-- The `search_params` built by the claudecode-plugin
`hybrid_search` (lines 190-241): both branches ask for `n_results * 2`
candidates ("Get more for ranking"), the full-text branch carries
`{"$contains": contains}` when `contains` is truthy (a non-empty
string), the vector branch carries `[query_text]`, rank fusion is the
literal `{"rrf": {}}`, and the fused result is capped at `n_results`. -/
def hybrid_search_params {W : Type} (query_text : String)
    (contains : Option String) (n_results : Nat) (whereF : Option W)
    (includeF : Option (List String)) : HybridCallParams W :=
  { query :=
      { n_results := some (n_results * 2)
        where_document :=
          match contains with
          | some s => if s = "" then none else some (.contains s)
          | none => none
        whereF := whereF }
    knn :=
      { query_texts := .list [query_text]
        n_results := some (n_results * 2)
        whereF := whereF }
    rank := ("rrf", [])
    n_results := n_results
    includeF := resolveInclude includeF }

/-- `query_from_seekdb.py::hybrid_search` (claudecode-plugin copy,
lines 190-241): get the collection, then issue exactly one
`collection.hybrid_search` call with `hybrid_search_params`; the
result is the database response, unmodified (no local fusion). -/
def hybrid_search {W R : Type} (c : Client W R)
    (collection_name query_text : String) (contains : Option String)
    (n_results : Nat) (whereF : Option W)
    (includeF : Option (List String)) :
    List (DbCall W) × Except PyErr R :=
  match get_collection c collection_name with
  | .error e => ([], .error e)
  | .ok _ =>
    let params := hybrid_search_params query_text contains n_results whereF includeF
    ([.hybrid collection_name params], .ok (c.hybridResp collection_name params))

/-- `query_from_seekdb.py::collection_info` (claudecode-plugin copy,
lines 420-438): get the collection, read its count, and peek the first
3 records when the count is positive. -/
def collection_info {W R : Type} (c : Client W R) (collection_name : String) :
    List (DbCall W) × Except PyErr (Nat × Option R) :=
  match get_collection c collection_name with
  | .error e => ([], .error e)
  | .ok _ =>
    let count := c.countResp collection_name
    if 0 < count then
      ([.count collection_name, .peek collection_name 3],
        .ok (count, some (c.peekResp collection_name 3)))
    else
      ([.count collection_name], .ok (count, none))

namespace AgentSkills

/-- The parameters built by the agent-skills `hybrid_search` (lines
138-188 of its copy of `query_from_seekdb.py`): the full-text branch is
always `{"$contains": query_text}` (the script takes no separate
`contains` argument), the vector branch passes the bare `query_text`
string, neither branch sets a per-branch candidate count, rank fusion
is the literal `{"rrf": {}}`, and the result is capped at
`n_results`. -/
def hybrid_search_params {W : Type} (query_text : String) (n_results : Nat)
    (whereF : Option W) (includeF : Option (List String)) :
    HybridCallParams W :=
  { query :=
      { n_results := none
        where_document := some (.contains query_text)
        whereF := whereF }
    knn :=
      { query_texts := .str query_text
        n_results := none
        whereF := whereF }
    rank := ("rrf", [])
    n_results := n_results
    includeF := resolveInclude includeF }

/-- The agent-skills `hybrid_search`: one `collection.hybrid_search`
call whose result is returned unmodified. -/
def hybrid_search {W R : Type} (c : Client W R)
    (collection_name query_text : String) (n_results : Nat)
    (whereF : Option W) (includeF : Option (List String)) :
    List (DbCall W) × Except PyErr R :=
  match get_collection c collection_name with
  | .error e => ([], .error e)
  | .ok _ =>
    let params := hybrid_search_params query_text n_results whereF includeF
    ([.hybrid collection_name params], .ok (c.hybridResp collection_name params))

end AgentSkills

/-! ## Query script: `results_to_dataframe`

Model of `query_from_seekdb.py::results_to_dataframe` (claudecode-plugin
copy, lines 244-308) for `result_type="query"`.  A Python dict value can
be missing, `None`, or present, so each key of the results dict is a
`Field`.  A row is the insertion-ordered association list a Python dict
is; `insertKV` has dict assignment semantics (`row[key] = value`
overwrites in place). -/

/-- A value stored under a key of a Python dict: the key may be absent,
hold `None`, or hold a value. -/
inductive Field (α : Type) where
  | missing
  | null
  | val (a : α)
deriving DecidableEq, Repr

/-- A query-type results dict.  `D` is the type of distance values
(floats in the source, never computed on), `V` the type of metadata
values.  Inner document entries may be `None` or empty (both falsy),
inner metadata entries may be `None` or an empty dict (both falsy). -/
structure QueryResults (D V : Type) where
  ids : Field (List (List String))
  distances : Field (List (List D))
  documents : Field (List (List (Option String)))
  metadatas : Field (List (List (Option (List (String × V)))))
deriving DecidableEq, Repr

/-- A value stored in a dataframe row. -/
inductive Cell (D V : Type) where
  | id (s : String)
  | dist (d : D)
  | doc (s : String)
  | meta (v : V)
deriving DecidableEq, Repr

/-- A dataframe row: a Python dict in insertion order. -/
abbrev Row (D V : Type) := List (String × Cell D V)

/-- Python dict assignment `d[k] = v`: overwrite in place, else
append. -/
def insertKV {β : Type} : List (String × β) → String → β → List (String × β)
  | [], k, v => [(k, v)]
  | (k0, v0) :: rest, k, v =>
    if k0 = k then (k, v) :: rest else (k0, v0) :: insertKV rest k v

/-- Python dict lookup `d.get(k)` on an association list. -/
def lookupKV {β : Type} : List (String × β) → String → Option β
  | [], _ => none
  | (k0, v0) :: rest, k => if k0 = k then some v0 else lookupKV rest k

/-- `results.get("distances", [[]])[0]`: the default `[[]]` applies only
when the key is missing (then `[[]][0]` is `[]`); a present `None`
raises `TypeError` and a present empty list raises `IndexError`. -/
def distancesList {D : Type} : Field (List (List D)) → Except PyErr (List D)
  | .missing => .ok []
  | .null => .error (.typeError "\x27NoneType\x27 object is not subscriptable")
  | .val [] => .error (.indexError "list index out of range")
  | .val (x :: _) => .ok x

/-- `results.get(k, [[]])[0] if results.get(k) else []` (used for
`documents` and `metadatas`): the conditional guards the subscript, so
missing, `None` and `[]` all yield `[]`. -/
def firstIfTruthy {β : Type} : Field (List (List β)) → List β
  | .val (x :: _) => x
  | _ => []

/-- `row = {"id": id_}` (line 274). -/
def rowBase {D V : Type} (id0 : String) : Row D V := [("id", .id id0)]

/-- `if distances and i < len(distances): row["distance"] =
distances[i]` (lines 276-277); the truthiness-and-bounds test is
exactly `distances[i]?` being `some`. -/
def rowWithDist {D V : Type} (i : Nat) (dists : List D) (row : Row D V) :
    Row D V :=
  match dists[i]? with
  | some d => insertKV row "distance" (.dist d)
  | none => row

/-- `if documents and i < len(documents) and documents[i]:
row["document"] = documents[i]` (lines 279-280): the entry must exist
and be truthy (not `None`, not empty). -/
def rowWithDoc {D V : Type} (i : Nat) (docs : List (Option String))
    (row : Row D V) : Row D V :=
  match docs[i]? with
  | some (some s) => if s = "" then row else insertKV row "document" (.doc s)
  | _ => row

/-- `if metadatas and i < len(metadatas) and metadatas[i]: for key,
value in metadatas[i].items(): row[key] = value` (lines 282-284). -/
def rowWithMeta {D V : Type} (i : Nat)
    (metas : List (Option (List (String × V)))) (row : Row D V) : Row D V :=
  match metas[i]? with
  | some (some l) => l.foldl (fun r kv => insertKV r kv.1 (.meta kv.2)) row
  | _ => row

/-- The row built for index `i` and id `id0` (loop body, lines
273-286). -/
def buildRow {D V : Type} (i : Nat) (id0 : String) (dists : List D)
    (docs : List (Option String)) (metas : List (Option (List (String × V)))) :
    Row D V :=
  rowWithMeta i metas (rowWithDoc i docs (rowWithDist i dists (rowBase id0)))

/-- `results_to_dataframe(results, result_type="query")`: empty
dataframe when `ids` is missing, `None`, `[]`, or has an empty first
element; otherwise one row per element of `ids[0]`, in order. -/
def results_to_dataframe {D V : Type} (results : QueryResults D V) :
    Except PyErr (List (Row D V)) :=
  match results.ids with
  | .missing => .ok []
  | .null => .ok []
  | .val [] => .ok []
  | .val ([] :: _) => .ok []
  | .val ((i0 :: irest) :: _) =>
    match distancesList results.distances with
    | .error e => .error e
    | .ok dists =>
      let ids := i0 :: irest
      let docs := firstIfTruthy results.documents
      let metas := firstIfTruthy results.metadatas
      .ok (ids.enum.map (fun p => buildRow p.1 p.2 dists docs metas))

/-! ## Catalog generator

Model of `agent-skills/skills/seekdb/scripts/generate_catalog.py` for a
non-dry-run invocation of `process_files` (lines 233-314) and
`write_catalog` (lines 317-323).  `file_md5` is abstracted by the `md5`
attribute of a file; the LLM (`generate_description` and its response
post-processing) is the abstract function `llm`. -/

/-- A markdown file collected under the docs directory: its path
relative to `docs_dir`, the MD5 digest of its current content, and its
text content. -/
structure MdFile where
  relPath : String
  md5 : String
  content : String
deriving DecidableEq, Repr

/-- A catalog entry: the JSON object `{"path": ..., "description": ...}`
with an optional `"branch"` key. -/
structure CatalogEntry where
  path : String
  description : String
  branch : Option String
deriving DecidableEq, Repr

/-- `load_existing_catalog` keys entries by their `"path"` field;
membership of `rel_path` in the loaded dict is a `find?` on that
field. -/
def catalogFind (catalog : List CatalogEntry) (p : String) :
    Option CatalogEntry :=
  catalog.find? (fun e => e.path == p)

/-- `truncate_content` (lines 162-166). -/
def truncate_content (content : String) (max_chars : Nat) : String :=
  if strLen content ≤ max_chars then content
  else strTake content max_chars ++ "\n\n[... content truncated ...]"

/-- The skip test of incremental mode (lines 255-256): the file is in
the hash cache and in the existing catalog, and the cached digest
equals the current one. -/
def skipCond (incremental : Bool) (hash_cache : List (String × String))
    (existing_catalog : List CatalogEntry) (f : MdFile) : Bool :=
  incremental &&
    (match lookupKV hash_cache f.relPath,
        catalogFind existing_catalog f.relPath with
     | some h, some _ => h == f.md5
     | _, _ => false)

/-- The reused entry of a skipped file (lines 257-261):
`existing_catalog[rel_path].copy()` with its `"branch"` updated from the
branch map when present.  The `none` fallback is unreachable whenever
`skipCond` holds. -/
def reuseEntry (existing_catalog : List CatalogEntry)
    (branch_map : List (String × String)) (f : MdFile) : CatalogEntry :=
  match catalogFind existing_catalog f.relPath with
  | some e =>
    { e with branch :=
        match lookupKV branch_map f.relPath with
        | some b => some b
        | none => e.branch }
  | none => { path := f.relPath, description := "", branch := none }

/-- The freshly generated entry of a processed file (`_process_one`,
lines 291-298): a `generate_description` LLM call on the truncated
content, with the branch taken from the branch map when present. -/
def genEntry (llm : String → String → String) (max_chars : Nat)
    (branch_map : List (String × String)) (f : MdFile) : CatalogEntry :=
  { path := f.relPath
    description := llm f.relPath (truncate_content f.content max_chars)
    branch := lookupKV branch_map f.relPath }

/-- `process_files` for a non-dry-run invocation: the first loop
appends reused entries for skipped files in file order and collects the
remaining files as tasks in file order; `asyncio.gather` preserves task
order, so the generated entries are appended after the reused ones in
task order; finally `entries.sort(key=lambda e: e["path"])` sorts by
path (stable merge sort, like Python's).  The second component is the
list of relative paths for which a `generate_description` LLM call was
issued. -/
def process_files (incremental : Bool) (llm : String → String → String)
    (max_chars : Nat) (existing_catalog : List CatalogEntry)
    (hash_cache : List (String × String))
    (branch_map : List (String × String)) (files : List MdFile) :
    List CatalogEntry × List String :=
  let skipped := files.filter (skipCond incremental hash_cache existing_catalog)
  let tasks :=
    files.filter (fun f => !skipCond incremental hash_cache existing_catalog f)
  let entries := skipped.map (reuseEntry existing_catalog branch_map) ++
    tasks.map (genEntry llm max_chars branch_map)
  (entries.mergeSort (fun a b => decide (a.path ≤ b.path)),
    tasks.map (fun f => f.relPath))

/-- `write_catalog` (lines 317-323): one `json.dumps(entry) + "\n"`
line written per entry; `encode` abstracts `json.dumps`. -/
def write_catalog (encode : CatalogEntry → String)
    (entries : List CatalogEntry) : List String :=
  entries.map encode

/-! ## Catalog generator: concurrency of LLM calls

`LLMClient` (generate_catalog.py lines 172-227) creates
`asyncio.Semaphore(concurrency)` in `__init__`, and every
`generate_description` call enters `async with self.semaphore:` before
issuing its API request and leaves the block after it.  The state
machine below counts the `generate_description` calls in each phase;
an API request is in flight exactly while its call holds the
semaphore. -/

/-- Counts of `generate_description` calls by phase, together with the
semaphore counter `avail`. -/
structure SemState where
  avail : Nat
  waiting : Nat
  inflight : Nat
  finished : Nat
deriving DecidableEq, Repr

/-- Scheduler steps: `acquire` (entering `async with self.semaphore`,
possible only while the counter is positive) moves a waiting call to
in-flight and decrements the counter; `release` (leaving the block)
moves an in-flight call to finished and increments the counter. -/
inductive SemStep : SemState → SemState → Prop where
  | acquire (s : SemState) (ha : 0 < s.avail) (hw : 0 < s.waiting) :
      SemStep s ⟨s.avail - 1, s.waiting - 1, s.inflight + 1, s.finished⟩
  | release (s : SemState) (hi : 0 < s.inflight) :
      SemStep s ⟨s.avail + 1, s.waiting, s.inflight - 1, s.finished + 1⟩

/-- The initial state: `asyncio.Semaphore(concurrency)` full, `n`
scheduled `generate_description` calls, none started. -/
def initSem (concurrency n : Nat) : SemState := ⟨concurrency, n, 0, 0⟩

/-- The argparse default of `--concurrency` (generate_catalog.py line
366). -/
def defaultConcurrency : Nat := 5

/-! ## Installer

Model of `agent-skills/src/seekdb_plugin_installer/main.py`.  Paths are
segment lists; the file system is a map from paths to file contents
(directories are implicit, so `mkdir(parents=True, exist_ok=True)` has
no observable effect). -/

/-- A filesystem path split into segments. -/
abbrev PathSegs := List String

/-- `TOOL_CONFIGS` (main.py lines 17-26). -/
def TOOL_CONFIGS : List (String × String) :=
  [("Claude Code", ".claude/skills"),
   ("OpenClaw", "~/.openclaw/workspace/skills"),
   ("Cursor", ".cursor/skills"),
   ("Codex", ".codex/skills"),
   ("OpenCode", ".opencode/skills"),
   ("GitHub Copilot", ".github/skills"),
   ("Qoder", ".qoder/skills"),
   ("Trae", ".trae/skills")]

/-- `get_tool_skills_path` (main.py lines 48-56): look the tool up in
`TOOL_CONFIGS`, raise `ValueError` for an unknown tool, expand a
leading `~` against the home directory (every `~`-path in
`TOOL_CONFIGS` has the form `~/...`), and otherwise resolve relative to
the project root. -/
def get_tool_skills_path (tool_name : String) (project_root home : PathSegs) :
    Except PyErr PathSegs :=
  match lookupKV TOOL_CONFIGS tool_name with
  | none => .error (.valueError ("Unknown tool: " ++ tool_name))
  | some skills_dir_name =>
    if pyStartsWith skills_dir_name "~" then
      .ok (home ++ (splitSlash skills_dir_name).drop 1)
    else
      .ok (project_root ++ splitSlash skills_dir_name)

/-- `shutil.rmtree(dir)` on a path-to-content map: every file under
`dir` disappears (a no-op when nothing is there). -/
def rmtree {C : Type} (dir : PathSegs) (fs : PathSegs → Option C) :
    PathSegs → Option C :=
  fun p => if dir.isPrefixOf p then none else fs p

/-- `shutil.copytree(src, dst)` on a path-to-content map: below `dst`
the tree re-rooted from `src`, unchanged elsewhere. -/
def copytree {C : Type} (src dst : PathSegs) (fs : PathSegs → Option C) :
    PathSegs → Option C :=
  fun p => if dst.isPrefixOf p then fs (src ++ p.drop dst.length) else fs p

/-- `copy_skill` (main.py lines 65-83): remove any existing
`target_skills_dir/skill_name` tree, create missing parent directories
(implicit in this model), then copy the source skill tree there. -/
def copy_skill {C : Type} (source_skill_dir target_skills_dir : PathSegs)
    (skill_name : String) (fs : PathSegs → Option C) : PathSegs → Option C :=
  let target_skill_dir := target_skills_dir ++ [skill_name]
  copytree source_skill_dir target_skill_dir (rmtree target_skill_dir fs)

end SeekdbPlugins

namespace SeekdbPlugins

/-! Theorems. -/

theorem batch_generator_nil {α : Type} (b : Nat) :
    batch_generator ([] : List α) b = [] := by
  cases b <;> simp [batch_generator]

theorem batch_generator_cons {α : Type} (x : α) (xs : List α) (b : Nat) :
    batch_generator (x :: xs) (b + 1) =
      (x :: xs).take (b + 1) :: batch_generator ((x :: xs).drop (b + 1)) (b + 1) := by
  rw [batch_generator]

theorem batch_generator_spec_aux {α : Type} (b : Nat) :
    ∀ (n : Nat) (items : List α), items.length ≤ n →
      (batch_generator items (b + 1)).flatten = items ∧
      (∀ c ∈ batch_generator items (b + 1), c ≠ [] ∧ c.length ≤ b + 1) ∧
      (∀ i, i + 1 < (batch_generator items (b + 1)).length →
        ∀ c, (batch_generator items (b + 1))[i]? = some c → c.length = b + 1) := by
  intro n
  induction n with
  | zero =>
    intro items hlen
    have : items = [] := List.eq_nil_of_length_eq_zero (Nat.le_zero.mp hlen)
    subst this
    rw [batch_generator_nil]
    refine ⟨rfl, by simp, by simp⟩
  | succ n ih =>
    intro items hlen
    match items with
    | [] =>
      rw [batch_generator_nil]
      refine ⟨rfl, by simp, by simp⟩
    | x :: xs =>
      rw [batch_generator_cons]
      have hdroplen : ((x :: xs).drop (b + 1)).length ≤ n := by
        simp only [List.length_drop]
        simp only [List.length_cons] at hlen ⊢
        omega
      obtain ⟨ihjoin, ihmem, ihidx⟩ := ih ((x :: xs).drop (b + 1)) hdroplen
      refine ⟨?_, ?_, ?_⟩
      · rw [List.flatten_cons, ihjoin, List.take_append_drop]
      · intro c hc
        rcases List.mem_cons.mp hc with h | h
        · subst h
          constructor
          · simp [List.take_succ_cons]
          · simp
        · exact ihmem c h
      · intro i hi c hc
        match i with
        | 0 =>
          simp only [List.getElem?_cons_zero, Option.some.injEq] at hc
          subst hc
          -- the next batch exists, so more than b+1 items remain
          have hne : batch_generator ((x :: xs).drop (b + 1)) (b + 1) ≠ [] := by
            intro h
            rw [h] at hi
            simp at hi
          have hdropne : (x :: xs).drop (b + 1) ≠ [] := by
            intro h
            rw [h, batch_generator_nil] at hne
            exact hne rfl
          have hlong : b + 1 < (x :: xs).length := by
            by_contra h
            exact hdropne (List.drop_eq_nil_of_le (Nat.le_of_not_lt h))
          simp only [List.length_take, List.length_cons] at *
          omega
        | Nat.succ i =>
          simp only [List.getElem?_cons_succ] at hc
          simp only [List.length_cons] at hi
          exact ihidx i (by omega) c hc

/-- C10: for every list and every positive `batch_size`, the batches
yielded by `batch_generator` concatenate back to the input list in
order; every batch is non-empty of length at most `batch_size`, and
every batch except possibly the last has length exactly `batch_size`. -/
theorem batch_generator_spec {α : Type} (batch_size : Nat)
    (hb : 0 < batch_size) (items : List α) :
    (batch_generator items batch_size).flatten = items ∧
    (∀ c ∈ batch_generator items batch_size, c ≠ [] ∧ c.length ≤ batch_size) ∧
    (∀ i, i + 1 < (batch_generator items batch_size).length →
      ∀ c, (batch_generator items batch_size)[i]? = some c →
        c.length = batch_size) := by
  obtain ⟨b, rfl⟩ : ∃ b, batch_size = b + 1 :=
    ⟨batch_size - 1, by omega⟩
  exact batch_generator_spec_aux b items.length items le_rfl

/-- Witness for C10 at a concrete input. -/
theorem batch_generator_spec_witness :
    0 < 3 ∧ (batch_generator [1, 2, 3, 4, 5, 6, 7] 3).flatten = [1, 2, 3, 4, 5, 6, 7] :=
  ⟨by decide, (batch_generator_spec 3 (by decide) [1, 2, 3, 4, 5, 6, 7]).1⟩

/-- C8: `read_file` raises `FileNotFoundError` when the input path does
not exist, parses the file when the lowered suffix is `.csv`, `.xlsx`
or `.xls`, and raises `ValueError` for any other suffix. -/
theorem read_file_spec {Raw Table : Type} (fs : String → Option Raw)
    (readCsv readExcel : Raw → Table) (p : String) :
    (fs p = none →
      read_file fs readCsv readExcel p =
        .error (.fileNotFound ("File not found: " ++ p))) ∧
    (∀ raw, fs p = some raw →
      (strLower (pathSuffix p) = ".csv" →
        read_file fs readCsv readExcel p = .ok (readCsv raw)) ∧
      (strLower (pathSuffix p) = ".xlsx" ∨ strLower (pathSuffix p) = ".xls" →
        read_file fs readCsv readExcel p = .ok (readExcel raw)) ∧
      (strLower (pathSuffix p) ∉ ([".csv", ".xlsx", ".xls"] : List String) →
        ∃ msg, read_file fs readCsv readExcel p = .error (.valueError msg))) := by
  constructor
  · intro h
    unfold read_file
    rw [h]
  · intro raw h
    have hsome : read_file fs readCsv readExcel p =
        (if strLower (pathSuffix p) = ".csv" then .ok (readCsv raw)
         else if strLower (pathSuffix p) = ".xlsx" ∨ strLower (pathSuffix p) = ".xls" then
           .ok (readExcel raw)
         else .error (.valueError
           ("Unsupported file format: " ++ strLower (pathSuffix p) ++
             ". Use .csv or .xlsx"))) := by
      unfold read_file
      rw [h]
    refine ⟨fun hs => ?_, fun hs => ?_, fun hs => ?_⟩
    · rw [hsome, if_pos hs]
    · rw [hsome, if_neg ?_, if_pos hs]
      rcases hs with hs | hs <;> rw [hs] <;> decide
    · simp only [List.mem_cons, List.not_mem_nil, or_false, not_or] at hs
      exact ⟨_, by rw [hsome, if_neg hs.1, if_neg (not_or.mpr ⟨hs.2.1, hs.2.2⟩)]⟩

/-- Witness for C8 at a concrete input (a `.CSV` path, case-insensitive
dispatch). -/
theorem read_file_spec_witness :
    read_file (fun q => if q = "data.CSV" then some 7 else none) id
      (fun r => r + 1) "data.CSV" = .ok 7 :=
  ((read_file_spec (fun q => if q = "data.CSV" then some 7 else none) id
      (fun r => r + 1) "data.CSV").2 7 (by decide)).1 (by decide)

/-- C7: `export_to_file` writes CSV for a `.csv` suffix
(case-insensitive), Excel for `.xlsx`/`.xls`, raises `ValueError` for
every other suffix, and on success returns the absolute path of the
written file. -/
theorem export_to_file_spec {Table : Type} (cwd : String) (df : Table)
    (p sheet : String) :
    (strLower (pathSuffix p) = ".csv" →
      export_to_file cwd df p sheet = .ok (.csv df p, absolutize cwd p)) ∧
    (strLower (pathSuffix p) = ".xlsx" ∨ strLower (pathSuffix p) = ".xls" →
      export_to_file cwd df p sheet = .ok (.excel df p sheet, absolutize cwd p)) ∧
    (strLower (pathSuffix p) ∉ ([".csv", ".xlsx", ".xls"] : List String) →
      ∃ msg, export_to_file cwd df p sheet = .error (.valueError msg)) ∧
    (pyStartsWith cwd "/" = true → pyStartsWith (absolutize cwd p) "/" = true) := by
  refine ⟨fun hs => ?_, fun hs => ?_, fun hs => ?_, fun habs => ?_⟩
  · unfold export_to_file
    rw [if_pos hs]
  · unfold export_to_file
    rw [if_neg ?_, if_pos hs]
    rcases hs with hs | hs <;> rw [hs] <;> decide
  · simp only [List.mem_cons, List.not_mem_nil, or_false, not_or] at hs
    exact ⟨_, by
      unfold export_to_file
      rw [if_neg hs.1, if_neg (not_or.mpr ⟨hs.2.1, hs.2.2⟩)]⟩
  · unfold absolutize
    split
    · assumption
    · unfold pyStartsWith at habs ⊢
      rw [List.isPrefixOf_iff_prefix] at habs ⊢
      have : (cwd ++ "/" ++ p).data = cwd.data ++ ("/" ++ p).data := by
        rw [String.append_assoc]
        exact congrArg String.data rfl |>.trans (by rw [String.data_append])
      rw [this]
      exact habs.trans (List.prefix_append _ _)

/-- Witness for C7 at a concrete input (an `.XLSX` path, relative,
exported from an absolute working directory). -/
theorem export_to_file_spec_witness :
    export_to_file "/home/u" 42 "out.XLSX" "Data" =
      .ok (.excel 42 "out.XLSX" "Data", "/home/u/out.XLSX") :=
  ((export_to_file_spec "/home/u" 42 "out.XLSX" "Data").2.1
    (Or.inl (by decide))).trans (by rfl)

/-- C9: every query operation that names a collection
(`query_by_text`, `get_by_ids`, `get_all`, `hybrid_search`,
`collection_info`) first checks that the collection exists and raises a
`ValueError` naming the missing collection; when it is absent, no
database call is issued and no result is produced. -/
theorem missing_collection_no_db_call {W R : Type} (c : Client W R)
    (name : String) (hname : name ∉ c.collections)
    (query_text : String) (n_results limit offset : Nat)
    (ids : List String) (contains : Option String) (whereF : Option W)
    (where_document : Option DocFilter) (includeF : Option (List String)) :
    query_by_text c name query_text n_results whereF where_document includeF =
      ([], .error (.valueError (notFoundMsg name c.collections))) ∧
    get_by_ids c name ids includeF =
      ([], .error (.valueError (notFoundMsg name c.collections))) ∧
    get_all c name limit offset whereF includeF =
      ([], .error (.valueError (notFoundMsg name c.collections))) ∧
    hybrid_search c name query_text contains n_results whereF includeF =
      ([], .error (.valueError (notFoundMsg name c.collections))) ∧
    collection_info c name =
      ([], .error (.valueError (notFoundMsg name c.collections))) := by
  have h : get_collection c name =
      .error (.valueError (notFoundMsg name c.collections)) := by
    unfold get_collection
    rw [if_neg hname]
  refine ⟨?_, ?_, ?_, ?_, ?_⟩
  · unfold query_by_text
    rw [h]
  · unfold get_by_ids
    rw [h]
  · unfold get_all
    rw [h]
  · unfold hybrid_search
    rw [h]
  · unfold collection_info
    rw [h]

/-- Witness for C9 at a concrete client holding only `mobiles`. -/
theorem missing_collection_no_db_call_witness :
    query_by_text
      (⟨["mobiles"], fun _ _ => 0, fun _ _ => 0, fun _ _ => 0,
        fun _ => 0, fun _ _ => 0⟩ : Client Unit Nat)
      "absent" "q" 5 none none none =
      ([], .error (.valueError (notFoundMsg "absent" ["mobiles"]))) :=
  (missing_collection_no_db_call
    (⟨["mobiles"], fun _ _ => 0, fun _ _ => 0, fun _ _ => 0,
      fun _ => 0, fun _ _ => 0⟩ : Client Unit Nat)
    "absent" (by decide) "q" 5 10 0 [] none none none none).1

/-- C2 counterexample: in the agent-skills copy of
`query_from_seekdb.py`, a `hybrid_search` invocation with
`n_results = 5` issues its one database call with NO per-branch
candidate count at all — neither the full-text branch nor the vector
branch requests `2 * n_results = 10` candidates, contradicting the
claim that every invocation of `hybrid_search` requests `2 * n_results`
candidates in each branch. -/
theorem agent_hybrid_branches_lack_fanout :
    (AgentSkills.hybrid_search
      (⟨["mobiles"], fun _ _ => (), fun _ _ => (), fun _ _ => (),
        fun _ => 0, fun _ _ => ()⟩ : Client Unit Unit)
      "mobiles" "gaming phone" 5 none none).1 =
      [DbCall.hybrid "mobiles"
        (AgentSkills.hybrid_search_params "gaming phone" 5 none none)] ∧
    (AgentSkills.hybrid_search_params (W := Unit)
      "gaming phone" 5 none none).knn.n_results = none ∧
    (AgentSkills.hybrid_search_params (W := Unit)
      "gaming phone" 5 none none).query.n_results = none ∧
    (AgentSkills.hybrid_search_params (W := Unit)
      "gaming phone" 5 none none).knn.n_results ≠ some (2 * 5) := by
  refine ⟨rfl, rfl, rfl, by decide⟩

/-- C2 amended: both `hybrid_search` implementations issue exactly one
`hybrid_search` call to the external database with the rank parameter
exactly `{"rrf": {}}` and the fused result capped at `n_results`, and
return the database response unmodified (no local fusion).  In the
claudecode-plugin copy each branch requests `2 * n_results` candidates,
the full-text branch carries `{"$contains": contains}` exactly when a
non-empty `contains` is given, and the vector branch carries
`[query_text]`; in the agent-skills copy the full-text branch always
carries `{"$contains": query_text}` (there is no separate `contains`
argument), the vector branch carries the bare `query_text`, and
neither branch sets a candidate count. -/
theorem hybrid_search_delegates_rrf {W R : Type} (c : Client W R)
    (collection_name : String) (hname : collection_name ∈ c.collections)
    (query_text : String) (contains : Option String) (n_results : Nat)
    (whereF : Option W) (includeF : Option (List String)) :
    (hybrid_search c collection_name query_text contains n_results whereF includeF =
      ([DbCall.hybrid collection_name
          (hybrid_search_params query_text contains n_results whereF includeF)],
        .ok (c.hybridResp collection_name
          (hybrid_search_params query_text contains n_results whereF includeF)))) ∧
    ((hybrid_search_params (W := W) query_text contains n_results whereF
        includeF).rank = ("rrf", [])) ∧
    ((hybrid_search_params (W := W) query_text contains n_results whereF
        includeF).query.n_results = some (n_results * 2)) ∧
    ((hybrid_search_params (W := W) query_text contains n_results whereF
        includeF).knn.n_results = some (n_results * 2)) ∧
    ((hybrid_search_params (W := W) query_text contains n_results whereF
        includeF).knn.query_texts = .list [query_text]) ∧
    ((hybrid_search_params (W := W) query_text contains n_results whereF
        includeF).n_results = n_results) ∧
    (∀ s, contains = some s → s ≠ "" →
      (hybrid_search_params (W := W) query_text contains n_results whereF
        includeF).query.where_document = some (.contains s)) ∧
    (contains = none ∨ contains = some "" →
      (hybrid_search_params (W := W) query_text contains n_results whereF
        includeF).query.where_document = none) ∧
    (AgentSkills.hybrid_search c collection_name query_text n_results whereF includeF =
      ([DbCall.hybrid collection_name
          (AgentSkills.hybrid_search_params query_text n_results whereF includeF)],
        .ok (c.hybridResp collection_name
          (AgentSkills.hybrid_search_params query_text n_results whereF includeF)))) ∧
    ((AgentSkills.hybrid_search_params (W := W) query_text n_results whereF
        includeF).rank = ("rrf", [])) ∧
    ((AgentSkills.hybrid_search_params (W := W) query_text n_results whereF
        includeF).query.where_document = some (.contains query_text)) ∧
    ((AgentSkills.hybrid_search_params (W := W) query_text n_results whereF
        includeF).knn.query_texts = .str query_text) ∧
    ((AgentSkills.hybrid_search_params (W := W) query_text n_results whereF
        includeF).n_results = n_results) := by
  have h : get_collection c collection_name = .ok collection_name := by
    unfold get_collection
    rw [if_pos hname]
  refine ⟨?_, rfl, rfl, rfl, rfl, rfl, ?_, ?_, ?_, rfl, rfl, rfl, rfl⟩
  · unfold hybrid_search
    rw [h]
  · intro s hs hne
    subst hs
    unfold hybrid_search_params
    simp [hne]
  · intro hs
    rcases hs with hs | hs <;> subst hs <;> rfl
  · unfold AgentSkills.hybrid_search
    rw [h]

/-- Each semaphore step preserves the sum of the counter and the
in-flight count. -/
theorem semStep_inv {c : Nat} {s t : SemState} (h : SemStep s t)
    (hs : s.avail + s.inflight = c) : t.avail + t.inflight = c := by
  cases h with
  | acquire ha hw =>
    show s.avail - 1 + (s.inflight + 1) = c
    omega
  | release hi =>
    show s.avail + 1 + (s.inflight - 1) = c
    omega

/-- C3: along every execution of the semaphore discipline of
`LLMClient.generate_description` starting from a semaphore initialized
to `concurrency` and `n` pending calls, at most `concurrency` API
requests are in flight at any moment; the `--concurrency` argparse
default is 5. -/
theorem generate_description_concurrency_bound (concurrency n : Nat)
    (s : SemState)
    (h : Relation.ReflTransGen SemStep (initSem concurrency n) s) :
    s.inflight ≤ concurrency ∧ defaultConcurrency = 5 := by
  have inv : s.avail + s.inflight = concurrency := by
    induction h with
    | refl => rfl
    | tail hsteps hstep ih => exact semStep_inv hstep ih
  exact ⟨by omega, rfl⟩

/-- Witness for C3: the state reached after one acquire step from a
semaphore of 5 with 2 pending calls. -/
theorem generate_description_concurrency_bound_witness :
    (⟨4, 1, 1, 0⟩ : SemState).inflight ≤ 5 :=
  (generate_description_concurrency_bound 5 2 ⟨4, 1, 1, 0⟩
    (Relation.ReflTransGen.single
      (SemStep.acquire (initSem 5 2) (by decide) (by decide)))).1

theorem not_prefix_append {α : Type} {tgt src : List α} (rest : List α)
    (h1 : ¬ tgt <+: src) (h2 : ¬ src <+: tgt) : ¬ tgt <+: (src ++ rest) := by
  intro h
  rcases le_or_lt tgt.length src.length with hle | hlt
  · apply h1
    rw [List.prefix_iff_eq_take] at h ⊢
    rw [List.take_append_of_le_length hle] at h
    exact h
  · exact h2 (List.prefix_of_prefix_length_le (List.prefix_append src rest) h
      (Nat.le_of_lt hlt))

/-- C6: for every tool in `TOOL_CONFIGS`, the target skills folder is
resolved against the home directory when the configured path starts
with `~` and against the project root otherwise; and `copy_skill` into
that folder (for a source skill directory disjoint from the target)
copies the source tree file-for-file to
`<skills folder>/<skill name>`, deletes everything previously under
that target (nothing survives unless mirrored from the source), and
leaves every path outside the target untouched. -/
theorem copy_skill_spec {C : Type} (tool cfg : String)
    (hcfg : lookupKV TOOL_CONFIGS tool = some cfg)
    (project_root home : PathSegs) (skill : String)
    (source_skill_dir : PathSegs) (fs : PathSegs → Option C) :
    (get_tool_skills_path tool project_root home =
      .ok (if pyStartsWith cfg "~" then home ++ (splitSlash cfg).drop 1
        else project_root ++ splitSlash cfg)) ∧
    (∀ tdir : PathSegs,
      ¬ (tdir ++ [skill]) <+: source_skill_dir →
      ¬ source_skill_dir <+: (tdir ++ [skill]) →
      ∀ rest,
        copy_skill source_skill_dir tdir skill fs (tdir ++ [skill] ++ rest) =
          fs (source_skill_dir ++ rest)) ∧
    (∀ (tdir p : PathSegs), ¬ (tdir ++ [skill]) <+: p →
      copy_skill source_skill_dir tdir skill fs p = fs p) ∧
    (∀ (tdir p : PathSegs), (tdir ++ [skill]) <+: p →
      fs (source_skill_dir ++ p.drop (tdir ++ [skill]).length) = none →
      copy_skill source_skill_dir tdir skill fs p = none) := by
  refine ⟨?_, ?_, ?_, ?_⟩
  · unfold get_tool_skills_path
    rw [hcfg]
    cases hb : pyStartsWith cfg "~" <;> simp [hb]
  · intro tdir h1 h2 rest
    have hpre : (tdir ++ [skill]).isPrefixOf (tdir ++ [skill] ++ rest) = true :=
      List.isPrefixOf_iff_prefix.mpr (List.prefix_append _ _)
    have hcond :
        ¬ ((tdir ++ [skill]).isPrefixOf (source_skill_dir ++ rest) = true) :=
      fun hb => not_prefix_append rest h1 h2 (List.isPrefixOf_iff_prefix.mp hb)
    simp only [copy_skill, copytree, rmtree]
    rw [if_pos hpre, List.drop_left, if_neg hcond]
  · intro tdir p hp
    have hcond : ¬ ((tdir ++ [skill]).isPrefixOf p = true) :=
      fun hb => hp (List.isPrefixOf_iff_prefix.mp hb)
    simp only [copy_skill, copytree, rmtree]
    rw [if_neg hcond, if_neg hcond]
  · intro tdir p hp hnone
    simp only [copy_skill, copytree, rmtree]
    rw [if_pos (List.isPrefixOf_iff_prefix.mpr hp)]
    split
    · rfl
    · exact hnone

/-- Witness for C6: installing `seekdb-docs` for the Claude Code tool
into a concrete project copies the packaged skill file to
`proj/.claude/skills/seekdb-docs/SKILL.md`. -/
theorem copy_skill_spec_witness :
    copy_skill ["pkg", "skills", "seekdb-docs"] ["proj", ".claude", "skills"]
      "seekdb-docs"
      (fun p => if p = ["pkg", "skills", "seekdb-docs", "SKILL.md"]
        then some "content" else none)
      (["proj", ".claude", "skills", "seekdb-docs"] ++ ["SKILL.md"]) =
      some "content" :=
  ((copy_skill_spec "Claude Code" ".claude/skills" (by decide)
      ["proj"] ["home", "u"] "seekdb-docs" ["pkg", "skills", "seekdb-docs"]
      (fun p => if p = ["pkg", "skills", "seekdb-docs", "SKILL.md"]
        then some "content" else none)).2.1
    ["proj", ".claude", "skills"] (by decide) (by decide)
    ["SKILL.md"]).trans (by decide)

theorem lookupKV_insertKV_self {β : Type} (r : List (String × β))
    (k : String) (v : β) : lookupKV (insertKV r k v) k = some v := by
  induction r with
  | nil => simp [insertKV, lookupKV]
  | cons hd tl ih =>
    obtain ⟨k0, v0⟩ := hd
    by_cases h : k0 = k
    · simp [insertKV, h, lookupKV]
    · simp [insertKV, h, lookupKV, ih]

theorem lookupKV_insertKV_ne {β : Type} (r : List (String × β))
    (k0 k : String) (v : β) (h : k0 ≠ k) :
    lookupKV (insertKV r k0 v) k = lookupKV r k := by
  induction r with
  | nil => simp [insertKV, lookupKV, h]
  | cons hd tl ih =>
    obtain ⟨k1, v1⟩ := hd
    simp only [insertKV]
    by_cases h1 : k1 = k0
    · subst h1
      rw [if_pos rfl]
      simp only [lookupKV]
      rw [if_neg h, if_neg h]
    · rw [if_neg h1]
      simp only [lookupKV]
      by_cases h2 : k1 = k
      · rw [if_pos h2, if_pos h2]
      · rw [if_neg h2, if_neg h2]
        exact ih

theorem lookupKV_foldl_insert_not_mem {β γ : Type} (f : γ → β)
    (l : List (String × γ)) (k : String) (h : k ∉ l.map Prod.fst) :
    ∀ r, lookupKV (l.foldl (fun acc kv => insertKV acc kv.1 (f kv.2)) r) k =
      lookupKV r k := by
  induction l with
  | nil => intro r; rfl
  | cons hd tl ih =>
    intro r
    obtain ⟨k0, v0⟩ := hd
    simp only [List.map_cons, List.mem_cons, not_or] at h
    rw [List.foldl_cons, ih h.2, lookupKV_insertKV_ne r k0 k (f v0)
      (Ne.symm h.1)]

theorem lookupKV_foldl_insert_mem {β γ : Type} (f : γ → β)
    (l : List (String × γ)) (k : String) (v : γ)
    (hnd : (l.map Prod.fst).Nodup) (hmem : (k, v) ∈ l) :
    ∀ r, lookupKV (l.foldl (fun acc kv => insertKV acc kv.1 (f kv.2)) r) k =
      some (f v) := by
  induction l with
  | nil => cases hmem
  | cons hd tl ih =>
    intro r
    obtain ⟨k0, v0⟩ := hd
    simp only [List.map_cons, List.nodup_cons] at hnd
    rw [List.foldl_cons]
    rcases List.mem_cons.mp hmem with heq | hmem2
    · obtain ⟨rfl, rfl⟩ := Prod.mk.injEq .. ▸ heq
      rw [lookupKV_foldl_insert_not_mem f tl k hnd.1]
      exact lookupKV_insertKV_self r k (f v)
    · exact ih hnd.2 hmem2 (insertKV r k0 (f v0))

theorem lookup_rowWithDist_self {D V : Type} (i : Nat) (dists : List D)
    (row : Row D V) (d : D) (h : dists[i]? = some d) :
    lookupKV (rowWithDist i dists row) "distance" = some (.dist d) := by
  simp only [rowWithDist, h]
  exact lookupKV_insertKV_self row "distance" (.dist d)

theorem lookup_rowWithDist_none {D V : Type} (i : Nat) (dists : List D)
    (row : Row D V) (h : dists[i]? = none) :
    lookupKV (rowWithDist i dists row) "distance" =
      lookupKV row "distance" := by
  simp only [rowWithDist, h]

theorem lookup_rowWithDist_of_ne {D V : Type} (i : Nat) (dists : List D)
    (row : Row D V) (k : String) (hk : k ≠ "distance") :
    lookupKV (rowWithDist i dists row) k = lookupKV row k := by
  unfold rowWithDist
  cases h : dists[i]? with
  | none => rfl
  | some d =>
    show lookupKV (insertKV row "distance" (Cell.dist d)) k = lookupKV row k
    exact lookupKV_insertKV_ne row "distance" k (Cell.dist d) (Ne.symm hk)

theorem lookup_rowWithDoc_self {D V : Type} (i : Nat)
    (docs : List (Option String)) (row : Row D V) (s : String)
    (h : docs[i]? = some (some s)) (hne : s ≠ "") :
    lookupKV (rowWithDoc i docs row) "document" = some (.doc s) := by
  simp only [rowWithDoc, h, if_neg hne]
  exact lookupKV_insertKV_self row "document" (.doc s)

theorem lookup_rowWithDoc_of_ne {D V : Type} (i : Nat)
    (docs : List (Option String)) (row : Row D V) (k : String)
    (hk : k ≠ "document") :
    lookupKV (rowWithDoc i docs row) k = lookupKV row k := by
  unfold rowWithDoc
  cases h : docs[i]? with
  | none => rfl
  | some o =>
    cases o with
    | none => rfl
    | some s =>
      show lookupKV (if s = "" then row
        else insertKV row "document" (Cell.doc s)) k = lookupKV row k
      by_cases hs : s = ""
      · rw [if_pos hs]
      · rw [if_neg hs]
        exact lookupKV_insertKV_ne row "document" k (Cell.doc s) (Ne.symm hk)

theorem lookup_rowWithMeta_of_not_mem {D V : Type} (i : Nat)
    (metas : List (Option (List (String × V)))) (row : Row D V) (k : String)
    (h : ∀ l, metas[i]? = some (some l) → k ∉ l.map Prod.fst) :
    lookupKV (rowWithMeta i metas row) k = lookupKV row k := by
  unfold rowWithMeta
  cases hm : metas[i]? with
  | none => rfl
  | some o =>
    cases o with
    | none => rfl
    | some l => exact lookupKV_foldl_insert_not_mem _ l k (h l hm) row

theorem lookup_rowWithMeta_mem {D V : Type} (i : Nat)
    (metas : List (Option (List (String × V)))) (row : Row D V)
    (l : List (String × V)) (k : String) (v : V)
    (hm : metas[i]? = some (some l)) (hnd : (l.map Prod.fst).Nodup)
    (hkv : (k, v) ∈ l) :
    lookupKV (rowWithMeta i metas row) k = some (.meta v) := by
  simp only [rowWithMeta, hm]
  exact lookupKV_foldl_insert_mem _ l k v hnd hkv row

/-- C4 counterexample: a metadata key named `"id"` overwrites the id
column (`row[key] = value` is dict assignment), so for the result dict
with `ids[0] = ["rec1"]` and `metadatas[0] = [{"id": "zzz"}]` the single
produced row does not contain the record id `"rec1"`: its `"id"` column
holds the metadata value `"zzz"` instead. -/
theorem metadata_key_overwrites_id_column :
    results_to_dataframe
      (⟨.val [["rec1"]], .missing, .missing,
        .val [[some [("id", "zzz")]]]⟩ : QueryResults Unit String) =
      .ok [[("id", Cell.meta "zzz")]] ∧
    lookupKV [("id", (Cell.meta "zzz" : Cell Unit String))] "id" ≠
      some (Cell.id "rec1") :=
  ⟨rfl, by decide⟩

/-- C4 amended: for every query-type result dictionary whose
`distances` field, if present, is a non-empty nested list (so that the
unguarded `results.get("distances", [[]])[0]` does not raise), and
whose metadata keys avoid the reserved column names `id`, `distance`
and `document` (a colliding metadata key overwrites that column),
`results_to_dataframe` returns one row per element of `ids[0]` in
order, where row `i` holds the id, the distance when `i` is within the
distances list (and none otherwise), the document when present and
non-empty, and one column per key of `metadatas[i]`; when `ids` is
missing, `None`, empty, or `ids[0]` is empty, it returns an empty
table. -/
theorem results_to_dataframe_spec {D V : Type} (results : QueryResults D V) :
    ((results.ids = .missing ∨ results.ids = .null ∨ results.ids = .val [] ∨
        (∃ rest, results.ids = .val ([] :: rest))) →
      results_to_dataframe results = .ok []) ∧
    (∀ ids0 rest, results.ids = .val (ids0 :: rest) → ids0 ≠ [] →
      ∀ dists, distancesList results.distances = .ok dists →
      (∀ mi ∈ firstIfTruthy results.metadatas, ∀ l, mi = some l →
        (l.map Prod.fst).Nodup ∧
        ∀ k ∈ l.map Prod.fst, k ≠ "id" ∧ k ≠ "distance" ∧ k ≠ "document") →
      ∃ rows : List (Row D V), results_to_dataframe results = .ok rows ∧
        rows.length = ids0.length ∧
        (∀ (i : Nat) (id0 : String), ids0[i]? = some id0 →
          ∃ row : Row D V, rows[i]? = some row ∧
            lookupKV row "id" = some (.id id0) ∧
            (∀ d, dists[i]? = some d →
              lookupKV row "distance" = some (.dist d)) ∧
            (dists[i]? = none → lookupKV row "distance" = none) ∧
            (∀ s, (firstIfTruthy results.documents)[i]? = some (some s) →
              s ≠ "" → lookupKV row "document" = some (.doc s)) ∧
            (∀ (l : List (String × V)) (k : String) (v : V),
              (firstIfTruthy results.metadatas)[i]? = some (some l) →
              (k, v) ∈ l → lookupKV row k = some (.meta v)))) := by
  constructor
  · intro h
    rcases h with h | h | h | ⟨rest, h⟩ <;> simp [results_to_dataframe, h]
  · intro ids0 rest hids hne dists hdists hkeys
    obtain ⟨i0, irest, rfl⟩ : ∃ a l, ids0 = a :: l := by
      cases ids0 with
      | nil => exact absurd rfl hne
      | cons a l => exact ⟨a, l, rfl⟩
    refine ⟨(i0 :: irest).enum.map
      (fun p => buildRow p.1 p.2 dists (firstIfTruthy results.documents)
        (firstIfTruthy results.metadatas)), ?_, ?_, ?_⟩
    · simp [results_to_dataframe, hids, hdists]
    · simp [List.enum_length]
    · intro i id0 hid
      have hmkeys : ∀ l, (firstIfTruthy results.metadatas)[i]? = some (some l) →
          (l.map Prod.fst).Nodup ∧
          ∀ k ∈ l.map Prod.fst, k ≠ "id" ∧ k ≠ "distance" ∧ k ≠ "document" :=
        fun l hm => hkeys (some l) (List.getElem?_mem hm) l rfl
      have hnotid : ∀ l, (firstIfTruthy results.metadatas)[i]? = some (some l) →
          "id" ∉ l.map Prod.fst :=
        fun l hm hmem => ((hmkeys l hm).2 "id" hmem).1 rfl
      have hnotdist : ∀ l, (firstIfTruthy results.metadatas)[i]? = some (some l) →
          "distance" ∉ l.map Prod.fst :=
        fun l hm hmem => ((hmkeys l hm).2 "distance" hmem).2.1 rfl
      have hnotdoc : ∀ l, (firstIfTruthy results.metadatas)[i]? = some (some l) →
          "document" ∉ l.map Prod.fst :=
        fun l hm hmem => ((hmkeys l hm).2 "document" hmem).2.2 rfl
      refine ⟨buildRow i id0 dists (firstIfTruthy results.documents)
        (firstIfTruthy results.metadatas), ?_, ?_, ?_, ?_, ?_, ?_⟩
      · rw [List.getElem?_map, List.getElem?_enum, hid]
        rfl
      · unfold buildRow
        rw [lookup_rowWithMeta_of_not_mem _ _ _ _ hnotid,
          lookup_rowWithDoc_of_ne _ _ _ _ (by decide),
          lookup_rowWithDist_of_ne _ _ _ _ (by decide)]
        rfl
      · intro d hd
        unfold buildRow
        rw [lookup_rowWithMeta_of_not_mem _ _ _ _ hnotdist,
          lookup_rowWithDoc_of_ne _ _ _ _ (by decide)]
        exact lookup_rowWithDist_self i dists _ d hd
      · intro hd
        unfold buildRow
        rw [lookup_rowWithMeta_of_not_mem _ _ _ _ hnotdist,
          lookup_rowWithDoc_of_ne _ _ _ _ (by decide),
          lookup_rowWithDist_none _ _ _ hd]
        rfl
      · intro s hs hsne
        unfold buildRow
        rw [lookup_rowWithMeta_of_not_mem _ _ _ _ hnotdoc]
        exact lookup_rowWithDoc_self i _ _ s hs hsne
      · intro l k v hm hkv
        unfold buildRow
        exact lookup_rowWithMeta_mem i _ _ l k v hm (hmkeys l hm).1 hkv

/-- Witness for C4 (amended) at a concrete two-record result dict. -/
theorem results_to_dataframe_spec_witness :
    ∃ rows, results_to_dataframe
      (⟨.val [["a", "b"]], .val [[3, 4]], .val [[some "hello", none]],
        .val [[some [("Brand", "X")], none]]⟩ : QueryResults Nat String) =
      .ok rows ∧ rows.length = 2 := by
  obtain ⟨rows, h1, h2, _⟩ :=
    (results_to_dataframe_spec
      (⟨.val [["a", "b"]], .val [[3, 4]], .val [[some "hello", none]],
        .val [[some [("Brand", "X")], none]]⟩ : QueryResults Nat String)).2
      ["a", "b"] [] rfl (by decide) [3, 4] rfl (by decide)
  exact ⟨rows, h1, h2⟩

theorem reuseEntry_path (existing_catalog : List CatalogEntry)
    (branch_map : List (String × String)) (f : MdFile) :
    (reuseEntry existing_catalog branch_map f).path = f.relPath := by
  unfold reuseEntry
  cases h : catalogFind existing_catalog f.relPath with
  | none => rfl
  | some e =>
    have hb := @List.find?_some CatalogEntry
      (fun x => x.path == f.relPath) e existing_catalog h
    have hpath : e.path = f.relPath := eq_of_beq hb
    exact hpath

/-- C1: in incremental mode, a markdown file is skipped exactly when
its relative path is in both the hash cache and the existing catalog
with the cached digest equal to the current one; for such a file no
LLM call is issued and the existing catalog entry is reused with its
branch updated from the branch map when present. -/
theorem incremental_skip_spec (llm : String → String → String)
    (max_chars : Nat) (existing_catalog : List CatalogEntry)
    (hash_cache branch_map : List (String × String)) (files : List MdFile)
    (f : MdFile) (hf : f ∈ files)
    (hnodup : (files.map MdFile.relPath).Nodup) :
    (skipCond true hash_cache existing_catalog f = true ↔
      lookupKV hash_cache f.relPath = some f.md5 ∧
      ∃ e, catalogFind existing_catalog f.relPath = some e) ∧
    (skipCond true hash_cache existing_catalog f = true →
      f.relPath ∉
        (process_files true llm max_chars existing_catalog hash_cache
          branch_map files).2 ∧
      ∀ e, catalogFind existing_catalog f.relPath = some e →
        ({ e with branch :=
            match lookupKV branch_map f.relPath with
            | some b => some b
            | none => e.branch } : CatalogEntry) ∈
          (process_files true llm max_chars existing_catalog hash_cache
            branch_map files).1) := by
  constructor
  · unfold skipCond
    cases hc : lookupKV hash_cache f.relPath with
    | none => simp
    | some hsh =>
      cases hcat : catalogFind existing_catalog f.relPath with
      | none => simp
      | some e => simp [beq_iff_eq]
  · intro hskip
    constructor
    · intro hmem
      obtain ⟨g, hg, hgeq⟩ := List.mem_map.mp hmem
      obtain ⟨hgfiles, hgskip⟩ := List.mem_filter.mp hg
      have hgf : g = f := List.inj_on_of_nodup_map hnodup hgfiles hf hgeq
      subst hgf
      rw [hskip] at hgskip
      exact Bool.noConfusion hgskip
    · intro e hcat
      have hentry : reuseEntry existing_catalog branch_map f =
          { e with branch :=
              match lookupKV branch_map f.relPath with
              | some b => some b
              | none => e.branch } := by
        unfold reuseEntry
        rw [hcat]
      rw [← hentry]
      exact List.mem_mergeSort.mpr (List.mem_append_left _
        (List.mem_map_of_mem _ (List.mem_filter.mpr ⟨hf, hskip⟩)))

/-- Witness for C1: one unchanged cached file is skipped, its entry
reused with the branch map value, and no LLM call is recorded. -/
theorem incremental_skip_spec_witness :
    ({ path := "a.md", description := "desc", branch := some "v1" } :
        CatalogEntry) ∈
      (process_files true (fun _ _ => "generated") 8000
        [{ path := "a.md", description := "desc", branch := none }]
        [("a.md", "h1")] [("a.md", "v1")]
        [{ relPath := "a.md", md5 := "h1", content := "body" }]).1 ∧
    "a.md" ∉
      (process_files true (fun _ _ => "generated") 8000
        [{ path := "a.md", description := "desc", branch := none }]
        [("a.md", "h1")] [("a.md", "v1")]
        [{ relPath := "a.md", md5 := "h1", content := "body" }]).2 := by
  have h := (incremental_skip_spec (fun _ _ => "generated") 8000
    [{ path := "a.md", description := "desc", branch := none }]
    [("a.md", "h1")] [("a.md", "v1")]
    [{ relPath := "a.md", md5 := "h1", content := "body" }]
    { relPath := "a.md", md5 := "h1", content := "body" }
    (by decide) (by decide)).2 (by decide)
  exact ⟨h.2 { path := "a.md", description := "desc", branch := none }
    (by decide), h.1⟩

/-- C5: a non-dry-run catalog generation produces exactly one entry per
collected markdown file (reused or freshly generated): the multiset of
entry paths equals the multiset of relative file paths and the counts
agree; the entries are sorted in ascending order of path; and
`write_catalog` emits exactly one JSON line per entry, in order. -/
theorem process_files_output_shape (incremental : Bool)
    (llm : String → String → String) (max_chars : Nat)
    (existing_catalog : List CatalogEntry)
    (hash_cache branch_map : List (String × String)) (files : List MdFile)
    (encode : CatalogEntry → String) :
    ((process_files incremental llm max_chars existing_catalog hash_cache
        branch_map files).1.map CatalogEntry.path).Perm
      (files.map MdFile.relPath) ∧
    (process_files incremental llm max_chars existing_catalog hash_cache
        branch_map files).1.length = files.length ∧
    (process_files incremental llm max_chars existing_catalog hash_cache
        branch_map files).1.Pairwise (fun a b => a.path ≤ b.path) ∧
    (∀ i : Nat,
      (write_catalog encode
        (process_files incremental llm max_chars existing_catalog hash_cache
          branch_map files).1)[i]? =
      ((process_files incremental llm max_chars existing_catalog hash_cache
          branch_map files).1[i]?).map encode) ∧
    (write_catalog encode
      (process_files incremental llm max_chars existing_catalog hash_cache
        branch_map files).1).length =
      (process_files incremental llm max_chars existing_catalog hash_cache
        branch_map files).1.length := by
  have hpre :
      (((files.filter (skipCond incremental hash_cache existing_catalog)).map
          (reuseEntry existing_catalog branch_map) ++
        (files.filter (fun f =>
          !skipCond incremental hash_cache existing_catalog f)).map
          (genEntry llm max_chars branch_map)).map CatalogEntry.path) =
      (files.filter (skipCond incremental hash_cache existing_catalog)).map
          MdFile.relPath ++
        (files.filter (fun f =>
          !skipCond incremental hash_cache existing_catalog f)).map
          MdFile.relPath := by
    rw [List.map_append, List.map_map, List.map_map]
    congr 1
    exact List.map_congr_left
      (fun g _ => reuseEntry_path existing_catalog branch_map g)
  have hperm :
      ((process_files incremental llm max_chars existing_catalog hash_cache
        branch_map files).1.map CatalogEntry.path).Perm
        (files.map MdFile.relPath) := by
    refine (((List.mergeSort_perm _
      (fun a b => decide (a.path ≤ b.path))).map CatalogEntry.path).trans ?_)
    rw [hpre, ← List.map_append]
    exact (List.filter_append_perm _ files).map MdFile.relPath
  refine ⟨hperm, ?_, ?_, ?_, ?_⟩
  · have := hperm.length_eq
    simpa using this
  · refine List.Pairwise.imp (fun hab => of_decide_eq_true hab)
      (List.sorted_mergeSort ?_ ?_ _)
    · intro a b c hab hbc
      exact decide_eq_true
        (le_trans (of_decide_eq_true hab) (of_decide_eq_true hbc))
    · intro a b
      rcases le_total a.path b.path with h | h
      · simp [h]
      · simp [h]
  · intro i
    exact List.getElem?_map ..
  · exact List.length_map ..

/-- Witness for C2 (amended) at a concrete invocation with a non-empty
`contains` filter. -/
theorem hybrid_search_delegates_rrf_witness :
    hybrid_search
      (⟨["mobiles"], fun _ _ => 0, fun _ _ => 0, fun _ _ => 99,
        fun _ => 0, fun _ _ => 0⟩ : Client Unit Nat)
      "mobiles" "gaming phone" (some "64 GB") 5 none none =
      ([DbCall.hybrid "mobiles"
          (hybrid_search_params "gaming phone" (some "64 GB") 5 none none)],
        .ok 99) :=
  (hybrid_search_delegates_rrf
    (⟨["mobiles"], fun _ _ => 0, fun _ _ => 0, fun _ _ => 99,
      fun _ => 0, fun _ _ => 0⟩ : Client Unit Nat)
    "mobiles" (by decide) "gaming phone" (some "64 GB") 5 none none).1

end SeekdbPlugins
